import Mathlib

/-!
# Verification of the Naya audio/session layer

Shallow embedding of the audio codec helpers, the live-playback scheduler,
the session teardown logic, the video-generation polling loop and the
API-key selector of the Naya repository (`src/types.ts`,
`src/components/ApiKeySelector.tsx`).

Conventions:
* JS byte buffers (`Uint8Array`) are `List ℕ` with every entry `< 256`;
  JS strings are represented by the list of their character codes
  (`List ℕ`), so the `String.fromCharCode`/`charCodeAt` loops in
  `encode`/`decode` are the identity on these representations.
* JS numbers that the code only ever combines by exact operations
  (scaling by powers of two, adding durations, `Math.max`) are `ℚ`.
* Fallible operations return `Except String α`; the error string names the
  platform exception that the corresponding JS expression would throw.
-/

namespace Naya


/-! ## Base64 (the platform's `btoa` / `atob`, as used by `encode`/`decode`) -/

/-- Code of the base64 alphabet character for a 6-bit group, as `btoa`
emits it: `A`–`Z`, `a`–`z`, `0`–`9`, `+`, `/`. -/
def btoaChar (n : ℕ) : ℕ :=
  if n < 26 then 65 + n
  else if n < 52 then 97 + (n - 26)
  else if n < 62 then 48 + (n - 52)
  else if n = 62 then 43
  else 47

/-- Inverse alphabet lookup performed by `atob` (only ever applied to
characters produced by `btoaChar`; other codes give junk, matching the
fact that real `atob` would throw there and no caller feeds it such
input). -/
def atobIndex (c : ℕ) : ℕ :=
  if c = 43 then 62
  else if c = 47 then 63
  else if c ≤ 57 then 52 + (c - 48)
  else if c ≤ 90 then c - 65
  else c - 71

/-- `btoa` on a latin-1 string given by its character codes: groups of
three 8-bit codes become four alphabet characters; a final group of one
or two bytes is padded with `=` (code 61). -/
def btoaBytes : List ℕ → List ℕ
  | [] => []
  | [a] => [btoaChar (a / 4), btoaChar (a % 4 * 16), 61, 61]
  | [a, b] => [btoaChar (a / 4), btoaChar (a % 4 * 16 + b / 16), btoaChar (b % 16 * 4), 61]
  | a :: b :: c :: rest =>
      btoaChar (a / 4) :: btoaChar (a % 4 * 16 + b / 16) ::
      btoaChar (b % 16 * 4 + c / 64) :: btoaChar (c % 64) :: btoaBytes rest

/-- `atob`, producing the character codes of the decoded binary string.
Padding (`=`, code 61) is recognised in the last four-character group, as
in forgiving-base64 decoding; inputs whose length is not a multiple of
four only arise from invalid base64 and decode to their longest valid
prefix here (real `atob` throws; no caller feeds it such input). -/
def atobChars : List ℕ → List ℕ
  | s0 :: s1 :: s2 :: s3 :: rest =>
      if s2 = 61 then [atobIndex s0 * 4 + atobIndex s1 / 16]
      else if s3 = 61 then
        [atobIndex s0 * 4 + atobIndex s1 / 16,
         atobIndex s1 % 16 * 16 + atobIndex s2 / 4]
      else
        (atobIndex s0 * 4 + atobIndex s1 / 16) ::
        (atobIndex s1 % 16 * 16 + atobIndex s2 / 4) ::
        (atobIndex s2 % 4 * 64 + atobIndex s3) :: atobChars rest
  | _ => []

/-- `encode` (src/types.ts:140): builds the binary string whose character
codes are the bytes, then applies `btoa`.  On the code-list
representation the string-building loop is the identity. -/
def encode (bytes : List ℕ) : List ℕ := btoaBytes bytes

/-- `decode` (src/types.ts:149): applies `atob` and reads the character
codes back into a byte array. -/
def decode (base64 : List ℕ) : List ℕ := atobChars base64
namespace PCM

/-! ## 16-bit PCM conversion (`createBlob`, `decodeAudioData`)

Microphone samples are `Float32Array` entries; every operation the code
performs on them (multiplication by the power of two 32768, truncation,
division of a small integer by 32768) is exact in IEEE arithmetic, so the
samples are modelled as `ℚ` with exact operations. -/

/-- JS number truncation toward zero (the first step of `ToInt16`). -/
def ratTrunc (x : ℚ) : ℤ := if 0 ≤ x then ⌊x⌋ else ⌈x⌉

/-- The JS `ToInt16` conversion applied when storing into an
`Int16Array`: truncate toward zero, reduce modulo 2^16, and reinterpret
as a signed 16-bit value. -/
def toInt16 (y : ℚ) : ℤ :=
  if (ratTrunc y) % 65536 < 32768 then (ratTrunc y) % 65536
  else (ratTrunc y) % 65536 - 65536

/-- Serialize 16-bit signed integers as bytes, little-endian — the view
`new Uint8Array(int16.buffer)` of an `Int16Array` on a little-endian
platform. -/
def int16sToBytesLE : List ℤ → List ℕ
  | [] => []
  | v :: rest =>
      ((v % 65536).toNat % 256) :: ((v % 65536).toNat / 256) :: int16sToBytesLE rest

/-- Reinterpret a byte buffer as 16-bit signed little-endian integers —
the view `new Int16Array(data.buffer)`.  A trailing odd byte never
reaches this point (the `Int16Array` constructor throws first). -/
def bytesToInt16LE : List ℕ → List ℤ
  | b0 :: b1 :: rest =>
      (if b0 + 256 * b1 < 32768 then ((b0 + 256 * b1 : ℕ) : ℤ)
       else ((b0 + 256 * b1 : ℕ) : ℤ) - 65536) :: bytesToInt16LE rest
  | _ => []

end PCM

/-- The result of `ctx.createBuffer` plus the per-channel data the decode
loop writes into it. -/
structure AudioBuffer where
  numChannels : ℕ
  frameCount : ℕ
  sampleRate : ℕ
  channelData : List (List ℚ)
deriving DecidableEq

/-- `buffer.duration = length / sampleRate`. -/
def AudioBuffer.duration (b : AudioBuffer) : ℚ := (b.frameCount : ℚ) / (b.sampleRate : ℚ)

/-- `decodeAudioData` (src/types.ts:159).  Faithful to the platform
semantics of each step:
* `new Int16Array(data.buffer)` throws a `RangeError` when the byte
  length is odd;
* `frameCount = dataInt16.length / numChannels` is JS float division;
  `ctx.createBuffer` converts it with `ToUint32`, i.e. truncates, and
  throws a `NotSupportedError` when the channel count or the truncated
  frame count is zero;
* the copy loop `for (i = 0; i < frameCount; i++)` writes
  `channelData[i] = dataInt16[i*numChannels+channel] / 32768`; writes at
  indices beyond the created buffer's length (possible only when the
  division was fractional) are silently dropped by the typed array, so
  the buffer holds exactly `⌊dataInt16.length / numChannels⌋` frames. -/
def decodeAudioData (data : List ℕ) (sampleRate numChannels : ℕ) :
    Except String AudioBuffer :=
  if data.length % 2 ≠ 0 then
    .error "RangeError: byte length of Int16Array should be a multiple of 2"
  else
    if numChannels = 0 ∨ (PCM.bytesToInt16LE data).length / numChannels = 0 then
      .error "NotSupportedError: createBuffer"
    else
      .ok { numChannels := numChannels
            frameCount := (PCM.bytesToInt16LE data).length / numChannels
            sampleRate := sampleRate
            channelData :=
              (List.range numChannels).map fun channel =>
                (List.range ((PCM.bytesToInt16LE data).length / numChannels)).map fun i =>
                  (((PCM.bytesToInt16LE data).getD (i * numChannels + channel) 0 : ℚ) / 32768) }

/-- The `Blob` value produced by `createBlob`. -/
structure EncodedBlob where
  data : List ℕ
  mimeType : String
deriving DecidableEq

/-- `createBlob` (src/types.ts:179): `int16[i] = data[i] * 32768` (JS
`ToInt16` conversion, i.e. truncation and 16-bit wrap-around), then the
little-endian bytes of the `Int16Array` are base64-encoded via
`encode`. -/
def createBlob (data : List ℚ) : EncodedBlob :=
  { data := Naya.encode (PCM.int16sToBytesLE (data.map fun x => PCM.toInt16 (x * 32768)))
    mimeType := "audio/pcm;rate=16000" }

/-- Frame size of the capture processor:
`createScriptProcessor(4096, 1, 1)` (src/types.ts:360). -/
def captureFrameSize : ℕ := 4096

/-! ## Live playback scheduling (`handleLiveMessage`, src/types.ts:298) -/

/-- One `AudioBufferSourceNode` created for a segment: where it was
scheduled, its buffer duration, and whether `stop()` has been called on
it. -/
structure SourceNode where
  startTime : ℚ
  duration : ℚ
  stopped : Bool
deriving DecidableEq

/-- The playback schedule `audioPlaybackRef.current`: `nextStartTime`
plus the in-flight sources.  Sources live in an append-only log
`sources`; `active` holds the log indices that are currently members of
the JS `Set` (`playback.sources`), so that stopping a node stays
observable after the set is cleared. -/
structure PlaybackState where
  nextStartTime : ℚ
  active : List ℕ
  sources : List SourceNode
deriving DecidableEq

/-- Bookkeeping of one decoded segment (src/types.ts:307–313): create a
source, `source.start(nextStartTime)` (the caller has already raised
`nextStartTime` to `now`), advance `nextStartTime` by the buffer
duration, and add the source to the set. -/
def scheduleSegment (p : PlaybackState) (dur : ℚ) : PlaybackState :=
  { nextStartTime := p.nextStartTime + dur
    active := p.active ++ [p.sources.length]
    sources := p.sources ++ [{ startTime := p.nextStartTime, duration := dur, stopped := false }] }

/-- `sources.forEach(source => source.stop())` over the active set;
`i` is the log index of the head of the remaining list. -/
def stopActiveFrom (active : List ℕ) (i : ℕ) : List SourceNode → List SourceNode
  | [] => []
  | s :: rest =>
      (if i ∈ active then { s with stopped := true } else s) :: stopActiveFrom active (i + 1) rest

/-- The interruption / teardown path shared by `handleLiveMessage`
(src/types.ts:316–320) and `stopRecording` (src/types.ts:406–408): stop
every active source, clear the set, reset `nextStartTime` to 0. -/
def clearPlayback (p : PlaybackState) : PlaybackState :=
  { nextStartTime := 0
    active := []
    sources := stopActiveFrom p.active 0 p.sources }

/-- The fields of a `LiveServerMessage` that drive playback:
`serverContent?.modelTurn?.parts[0]?.inlineData?.data` (base64 text, as
character codes) and `serverContent?.interrupted`. -/
structure LiveMessage where
  audioData : Option (List ℕ)
  interrupted : Bool

/-- `handleLiveMessage` (src/types.ts:298), playback portion.  Returns
the playback state after the handler together with `true` when the
handler rejects (an exception escaping `await decodeAudioData`), in
which case the interruption branch is skipped.  Order is faithful to the
source: `nextStartTime` is raised to `now` before the segment is
decoded, so that update persists even when decoding throws.
`hasOutputCtx` models `audioContextRef.current?.output`; a present but
empty `data` string is falsy in JS and skips the audio branch.  The
transcription branches touch only the chat transcript and are omitted
here. -/
def handleLiveMessage (hasOutputCtx : Bool) (p : PlaybackState) (m : LiveMessage)
    (now : ℚ) : PlaybackState × Bool :=
  match m.audioData with
  | some b64 =>
      if b64.isEmpty || !hasOutputCtx then
        (if m.interrupted then clearPlayback p else p, false)
      else
        match decodeAudioData (decode b64) 24000 1 with
        | .error _ => ({ p with nextStartTime := max p.nextStartTime now }, true)
        | .ok buf =>
            (if m.interrupted then
              clearPlayback (scheduleSegment
                { p with nextStartTime := max p.nextStartTime now } buf.duration)
             else scheduleSegment
                { p with nextStartTime := max p.nextStartTime now } buf.duration, false)
  | none => (if m.interrupted then clearPlayback p else p, false)

/-- A run of audio-only messages (no interruption signal), in arrival
order, each paired with the output clock reading at which it is
handled. -/
def runSegments (p : PlaybackState) : List (List ℕ × ℚ) → PlaybackState
  | [] => p
  | (b, t) :: rest =>
      runSegments (handleLiveMessage true p { audioData := some b, interrupted := false } t).1 rest

/-! ## Session teardown (`stopRecording`, src/types.ts:389) -/

/-- One track of the captured media stream. -/
structure MediaTrack where
  stopped : Bool
deriving DecidableEq

/-- The open live session behind `sessionPromiseRef`. -/
structure SessionHandle where
  closed : Bool
deriving DecidableEq

/-- `audioContextRef.current`: input/output device contexts and the
capture-graph nodes (`scriptProcessor` and `source` stay unwired until
the session's open callback runs). -/
structure DeviceContexts where
  scriptProcessorWired : Bool
  sourceWired : Bool
  inputClosed : Bool
  outputClosed : Bool
deriving DecidableEq

/-- The refs of the component that `stopRecording` touches. -/
structure AppAudioState where
  isRecording : Bool
  mediaTracks : Option (List MediaTrack)
  session : Option SessionHandle
  contexts : Option DeviceContexts
  playback : PlaybackState
deriving DecidableEq

/-- `stopRecording` (src/types.ts:389): stop every track of the media
stream (the stream ref itself is kept), close the session and null its
ref, disconnect the graph nodes, close both device contexts and null
their ref, and clear the playback schedule.  Every step is a platform
call that does not throw synchronously (closing an already-closed
context or stopping a stopped track surfaces at worst as a rejected
promise, which does not interrupt the remaining statements), so the
model is a total function. -/
def stopRecording (st : AppAudioState) : AppAudioState :=
  { isRecording := false
    mediaTracks := st.mediaTracks.map (List.map fun _ => { stopped := true })
    session := none
    contexts := none
    playback := clearPlayback st.playback }

/-! ## Video generation polling (`generateVideo`, src/types.ts:57) -/

/-- The observable part of an operation object returned by
`generateVideos` / `getVideosOperation`: `done` and
`response?.generatedVideos?[0]?.video?.uri`. -/
structure VideoOp where
  done : Bool
  uri : Option String
deriving DecidableEq

/-- The observable part of a `fetch` response. -/
structure FetchResponse where
  ok : Bool
  statusText : String
  blobUrl : String
deriving DecidableEq

/-- Poll interval of the `while (!operation.done)` loop:
`setTimeout(resolve, 10000)` (src/types.ts:88). -/
def pollIntervalMs : ℕ := 10000

/-- The `while (!operation.done)` polling loop: `op` is the current
operation, `rest` the stream of results successive `getVideosOperation`
calls would return.  `none` models the loop still polling when the
stream is exhausted without a terminal operation. -/
def pollUntilDone (op : VideoOp) (rest : List VideoOp) : Option VideoOp :=
  if op.done then some op
  else
    match rest with
    | [] => none
    | o :: os => pollUntilDone o os

/-- `generateVideo` (src/types.ts:57) after the initial `generateVideos`
call returned `op0`: poll until done, read the download URI, fetch
`uri&key=KEY`, and wrap the response body as an object URL.  Progress
callbacks only produce UI strings and are omitted. -/
def generateVideo (op0 : VideoOp) (rest : List VideoOp) (key : String)
    (fetchFn : String → FetchResponse) : Option (Except String String) :=
  (pollUntilDone op0 rest).map fun op =>
    match op.uri with
    | none => .error "Video generation failed or returned no link."
    | some uri =>
        if (fetchFn (uri ++ "&key=" ++ key)).ok then
          .ok (fetchFn (uri ++ "&key=" ++ key)).blobUrl
        else
          .error ("Failed to download video: " ++ (fetchFn (uri ++ "&key=" ++ key)).statusText)

/-! ## API-key selector (`src/components/ApiKeySelector.tsx`) -/

/-- The host capability `window.aistudio` as the component can observe
it: whether each probed member is a function, whether calling it
rejects, and the value `hasSelectedApiKey` resolves to. -/
structure AiStudio where
  hasSelectedApiKeyIsFun : Bool
  hasSelectedApiKeyRejects : Bool
  hasSelectedApiKeyValue : Bool
  openSelectKeyIsFun : Bool
  openSelectKeyRejects : Bool
deriving DecidableEq

/-- Local component state of `ApiKeySelector`. -/
structure SelectorState where
  isKeySelected : Bool
  isChecking : Bool
deriving DecidableEq

/-- `checkApiKey` (ApiKeySelector.tsx:13): returns the new local state
and the list of arguments passed to `onKeySelectionChange`, in order.
Every path sets `isKeySelected` and reports it, and the `finally` block
ends the checking state. -/
def checkApiKey (w : Option AiStudio) (st : SelectorState) : SelectorState × List Bool :=
  match w, st with
  | some a, _ =>
      if a.hasSelectedApiKeyIsFun then
        if a.hasSelectedApiKeyRejects then
          ({ isKeySelected := false, isChecking := false }, [false])
        else
          ({ isKeySelected := a.hasSelectedApiKeyValue, isChecking := false },
           [a.hasSelectedApiKeyValue])
      else
        ({ isKeySelected := false, isChecking := false }, [false])
  | none, _ => ({ isKeySelected := false, isChecking := false }, [false])

/-- `handleSelectKey` (ApiKeySelector.tsx:38): when the capability and
its `openSelectKey` function exist, open the dialog and — if it resolves
— report the key as selected without consulting `hasSelectedApiKey`; a
rejection is caught and logged, leaving the state unchanged; an absent
capability does nothing. -/
def handleSelectKey (w : Option AiStudio) (st : SelectorState) : SelectorState × List Bool :=
  match w with
  | some a =>
      if a.openSelectKeyIsFun then
        if a.openSelectKeyRejects then (st, [])
        else ({ st with isKeySelected := true }, [true])
      else (st, [])
  | none => (st, [])

-- ===================== Theorems ====================

theorem atobIndex_btoaChar : ∀ n < 64, atobIndex (btoaChar n) = n := by decide

theorem btoaChar_ne_61 (n : ℕ) : btoaChar n ≠ 61 := by
  unfold btoaChar
  split
  · omega
  split
  · omega
  split
  · omega
  split
  · omega
  · omega

/-- Base64 round trip on byte lists (shared helper for the claims). -/
theorem atobChars_btoaBytes : ∀ bs : List ℕ, (∀ x ∈ bs, x < 256) →
    atobChars (btoaBytes bs) = bs
  | [], _ => rfl
  | [a], h => by
    have ha : a < 256 := h a (by simp)
    simp only [btoaBytes, atobChars, if_pos rfl]
    have h1 := atobIndex_btoaChar (a / 4) (by omega)
    have h2 := atobIndex_btoaChar (a % 4 * 16) (by omega)
    rw [h1, h2]
    have e0 : a / 4 * 4 + a % 4 * 16 / 16 = a := by omega
    rw [e0]
    simp
  | [a, b], h => by
    have ha : a < 256 := h a (by simp)
    have hb : b < 256 := h b (by simp)
    simp only [btoaBytes, atobChars, if_neg (btoaChar_ne_61 _), if_pos rfl]
    have h1 := atobIndex_btoaChar (a / 4) (by omega)
    have h2 := atobIndex_btoaChar (a % 4 * 16 + b / 16) (by omega)
    have h3 := atobIndex_btoaChar (b % 16 * 4) (by omega)
    rw [h1, h2, h3]
    have e0 : a / 4 * 4 + (a % 4 * 16 + b / 16) / 16 = a := by omega
    have e1 : (a % 4 * 16 + b / 16) % 16 * 16 + b % 16 * 4 / 4 = b := by omega
    rw [e0, e1]
    simp
  | a :: b :: c :: rest, h => by
    have ha : a < 256 := h a (by simp)
    have hb : b < 256 := h b (by simp)
    have hc : c < 256 := h c (by simp)
    have ih := atobChars_btoaBytes rest (fun x hx => h x (by simp [hx]))
    simp only [btoaBytes, atobChars, if_neg (btoaChar_ne_61 _)]
    have h1 := atobIndex_btoaChar (a / 4) (by omega)
    have h2 := atobIndex_btoaChar (a % 4 * 16 + b / 16) (by omega)
    have h3 := atobIndex_btoaChar (b % 16 * 4 + c / 64) (by omega)
    have h4 := atobIndex_btoaChar (c % 64) (by omega)
    rw [h1, h2, h3, h4, ih]
    have e0 : a / 4 * 4 + (a % 4 * 16 + b / 16) / 16 = a := by omega
    have e1 : (a % 4 * 16 + b / 16) % 16 * 16 + (b % 16 * 4 + c / 64) / 4 = b := by omega
    have e2 : (b % 16 * 4 + c / 64) % 4 * 64 + c % 64 = c := by omega
    rw [e0, e1, e2]

/-- Every character `btoa` emits is an 8-bit code (in fact printable
ASCII), so encoded data is itself a valid byte list. -/
theorem btoaBytes_lt_256 : ∀ bs : List ℕ, ∀ x ∈ btoaBytes bs, x < 256 := by
  intro bs
  induction bs using btoaBytes.induct with
  | case1 => simp [btoaBytes]
  | case2 a =>
    simp only [btoaBytes]
    intro x hx
    simp only [List.mem_cons, List.not_mem_nil, or_false] at hx
    rcases hx with h | h | h | h <;> subst h <;> first
      | omega
      | · unfold btoaChar; split; omega; split; omega; split; omega; split; omega; omega
  | case3 a b =>
    simp only [btoaBytes]
    intro x hx
    simp only [List.mem_cons, List.not_mem_nil, or_false] at hx
    rcases hx with h | h | h | h <;> subst h <;> first
      | omega
      | · unfold btoaChar; split; omega; split; omega; split; omega; split; omega; omega
  | case4 a b c rest ih =>
    simp only [btoaBytes]
    intro x hx
    simp only [List.mem_cons] at hx
    rcases hx with h | h | h | h | h
    · subst h; unfold btoaChar; split; omega; split; omega; split; omega; split; omega; omega
    · subst h; unfold btoaChar; split; omega; split; omega; split; omega; split; omega; omega
    · subst h; unfold btoaChar; split; omega; split; omega; split; omega; split; omega; omega
    · subst h; unfold btoaChar; split; omega; split; omega; split; omega; split; omega; omega
    · exact ih x h

theorem btoaBytes_length : ∀ bs : List ℕ,
    (btoaBytes bs).length = (bs.length + 2) / 3 * 4 := by
  intro bs
  induction bs using btoaBytes.induct with
  | case1 => rfl
  | case2 a => simp [btoaBytes]
  | case3 a b => simp [btoaBytes]
  | case4 a b c rest ih =>
    simp only [btoaBytes, List.length_cons, ih]
    omega

theorem atobChars_btoaBytes_length (bs : List ℕ) (h : ∀ x ∈ bs, x < 256) :
    (atobChars (btoaBytes bs)).length = bs.length := by
  rw [atobChars_btoaBytes bs h]
namespace PCM

theorem int16sToBytesLE_lt_256 : ∀ vs : List ℤ, ∀ x ∈ int16sToBytesLE vs, x < 256 := by
  intro vs
  induction vs with
  | nil => simp [int16sToBytesLE]
  | cons v rest ih =>
    intro x hx
    simp only [int16sToBytesLE, List.mem_cons] at hx
    rcases hx with h | h | h
    · omega
    · subst h
      have h1 : 0 ≤ v % 65536 := Int.emod_nonneg v (by omega)
      have h2 : v % 65536 < 65536 := Int.emod_lt_of_pos v (by omega)
      omega
    · exact ih x h

theorem int16sToBytesLE_length : ∀ vs : List ℤ,
    (int16sToBytesLE vs).length = 2 * vs.length := by
  intro vs
  induction vs with
  | nil => rfl
  | cons v rest ih => simp only [int16sToBytesLE, List.length_cons, ih]; omega

/-- Byte serialization round trip for in-range 16-bit values. -/
theorem bytesToInt16LE_int16sToBytesLE : ∀ vs : List ℤ,
    (∀ v ∈ vs, -32768 ≤ v ∧ v < 32768) →
    bytesToInt16LE (int16sToBytesLE vs) = vs := by
  intro vs
  induction vs with
  | nil => intro _; rfl
  | cons v rest ih =>
    intro h
    have hv := h v (by simp)
    have hrest := ih fun x hx => h x (by simp [hx])
    have h1 : 0 ≤ v % 65536 := Int.emod_nonneg v (by omega)
    have h2 : v % 65536 < 65536 := Int.emod_lt_of_pos v (by omega)
    have hmod : v % 65536 = if 0 ≤ v then v else v + 65536 := by
      split
      · rw [Int.emod_eq_of_lt (by omega) (by omega)]
      · omega
    simp only [int16sToBytesLE, bytesToInt16LE, hrest, List.cons.injEq, and_true]
    have htn : ((v % 65536).toNat : ℤ) = v % 65536 := Int.toNat_of_nonneg h1
    have hsplit : (v % 65536).toNat % 256 + 256 * ((v % 65536).toNat / 256) =
        (v % 65536).toNat := by omega
    rw [hsplit]
    split
    · push_cast [htn]
      omega
    · push_cast [htn]
      omega

theorem bytesToInt16LE_length : ∀ bs : List ℕ,
    (bytesToInt16LE bs).length = bs.length / 2 := by
  intro bs
  induction bs using bytesToInt16LE.induct with
  | case1 b0 b1 rest ih =>
    simp only [bytesToInt16LE, List.length_cons, ih]
    omega
  | case2 bs h =>
    match bs, h with
    | [], _ => rfl
    | [b], _ => simp [bytesToInt16LE]
    | b0 :: b1 :: rest, h => exact absurd rfl (h b0 b1 rest)

theorem ratTrunc_close (y : ℚ) : |y - (ratTrunc y : ℚ)| < 1 := by
  unfold ratTrunc
  rw [abs_lt]
  split
  · have h1 := Int.floor_le y
    have h2 := Int.lt_floor_add_one y
    constructor <;> linarith
  · have h1 := Int.le_ceil y
    have h2 := Int.ceil_lt_add_one y
    constructor <;> linarith

theorem ratTrunc_mem (y : ℚ) (h0 : -32768 ≤ y) (h1 : y < 32768) :
    -32768 ≤ ratTrunc y ∧ ratTrunc y < 32768 := by
  unfold ratTrunc
  split
  next hy =>
    refine ⟨le_trans (by norm_num) (Int.floor_nonneg.mpr hy), ?_⟩
    rw [Int.floor_lt]
    push_cast
    exact h1
  next hy =>
    constructor
    · rw [← Int.ceil_intCast (α := ℚ) (-32768)]
      exact Int.ceil_le_ceil (by push_cast; exact h0)
    · calc ⌈y⌉ ≤ 0 := Int.ceil_le.mpr (by push_cast; linarith [lt_of_not_le hy])
        _ < 32768 := by norm_num

/-- `toInt16` always lands in the signed 16-bit range. -/
theorem toInt16_range (y : ℚ) : -32768 ≤ toInt16 y ∧ toInt16 y < 32768 := by
  unfold toInt16
  split <;>
  · have h1 : 0 ≤ ratTrunc y % 65536 := Int.emod_nonneg _ (by omega)
    have h2 : ratTrunc y % 65536 < 65536 := Int.emod_lt_of_pos _ (by omega)
    omega

/-- For a sample product already in the signed 16-bit range, `ToInt16`
does not wrap and is plain truncation. -/
theorem toInt16_eq_ratTrunc (y : ℚ) (h0 : -32768 ≤ y) (h1 : y < 32768) :
    toInt16 y = ratTrunc y := by
  have hm := ratTrunc_mem y h0 h1
  unfold toInt16
  split <;> omega

/-- Quantization error of one sample, for samples in `[-1, 1)`. -/
theorem toInt16_sample_close (x : ℚ) (h0 : -1 ≤ x) (h1 : x < 1) :
    |x - (toInt16 (x * 32768) : ℚ) / 32768| ≤ 1 / 32768 := by
  have hy0 : (-32768 : ℚ) ≤ x * 32768 := by linarith
  have hy1 : x * 32768 < 32768 := by linarith
  rw [toInt16_eq_ratTrunc _ hy0 hy1]
  have h2 := ratTrunc_close (x * 32768)
  rw [abs_lt] at h2
  rw [abs_le]
  constructor <;> linarith [h2.1, h2.2]

end PCM

theorem map_getD_range (l : List ℤ) (f : ℤ → ℚ) :
    (List.range l.length).map (fun i => f (l.getD i 0)) = l.map f := by
  induction l with
  | nil => rfl
  | cons a t ih =>
    rw [List.length_cons, List.range_succ_eq_map, List.map_cons, List.map_map,
      List.map_cons]
    refine congrArg₂ _ rfl ?_
    rw [← ih]
    exact List.map_congr_left fun i _ => rfl

/-- Decoding the blob of a nonempty in-range sample list succeeds, with
one channel of the same length whose entries are the truncated samples
rescaled (shared helper for the PCM claims). -/
theorem decode_createBlob (s : List ℚ) (hne : s ≠ []) :
    decodeAudioData (decode (createBlob s).data) 16000 1 =
      .ok { numChannels := 1, frameCount := s.length, sampleRate := 16000,
            channelData := [s.map fun x => ((PCM.toInt16 (x * 32768) : ℚ) / 32768)] } := by
  have hksrange : ∀ v ∈ s.map (fun x => PCM.toInt16 (x * 32768)),
      -32768 ≤ v ∧ v < 32768 := by
    intro v hv
    obtain ⟨x, _, rfl⟩ := List.mem_map.mp hv
    exact PCM.toInt16_range _
  have hbytes : decode (createBlob s).data =
      PCM.int16sToBytesLE (s.map fun x => PCM.toInt16 (x * 32768)) :=
    atobChars_btoaBytes _ (PCM.int16sToBytesLE_lt_256 _)
  rw [hbytes]
  unfold decodeAudioData
  rw [PCM.bytesToInt16LE_int16sToBytesLE _ hksrange, PCM.int16sToBytesLE_length,
    List.length_map]
  have hlen : s.length ≠ 0 := fun h => hne (List.eq_nil_of_length_eq_zero h)
  rw [if_neg (by omega), if_neg (by omega)]
  refine congrArg _ ?_
  refine (AudioBuffer.mk.injEq _ _ _ _ _ _ _ _).mpr ⟨by omega, by omega, rfl, ?_⟩
  have h1 : List.range 1 = [0] := rfl
  rw [h1, List.map_cons, List.map_nil]
  refine congrArg₂ _ ?_ rfl
  have h2 : (fun i => (((s.map fun x => PCM.toInt16 (x * 32768)).getD (i * 1 + 0) 0 : ℚ) / 32768))
      = fun i => (((s.map fun x => PCM.toInt16 (x * 32768)).getD i 0 : ℚ) / 32768) := by
    funext i
    rw [Nat.mul_one, Nat.add_zero]
  have h3 : s.length / 1 = (s.map fun x => PCM.toInt16 (x * 32768)).length := by
    rw [List.length_map]; omega
  rw [h2, h3, map_getD_range (f := fun v => ((v : ℚ) / 32768)), List.map_map]
  rfl


/-- C5: for every byte sequence `b` (entries < 256, as delivered by a
`Uint8Array`), `decode (encode b) = b`: `encode` maps each byte to its
character code, concatenates and applies base64, and `decode` inverts
it. -/
theorem C5_decode_encode_roundtrip (b : List ℕ) (h : ∀ x ∈ b, x < 256) :
    Naya.decode (Naya.encode b) = b :=
  Naya.atobChars_btoaBytes b h

/-- Witness for C5 at the concrete byte sequence `[0, 127, 255, 8]`. -/
theorem C5_decode_encode_roundtrip_witness :
    Naya.decode (Naya.encode [0, 127, 255, 8]) = [0, 127, 255, 8] :=
  C5_decode_encode_roundtrip [0, 127, 255, 8] (by decide)

/-- C1 (amended): for every nonempty float sample sequence with values in
`[-1, 1)`, converting to 16-bit PCM bytes via `createBlob` (decoding its
base64 `data` field) and back via `decodeAudioData` with the same rate
and one channel reproduces the sequence with per-sample error at most
`1/32768`.  (The original claim over `[-1, 1]` fails: a sample equal to
`1` wraps to `-32768`; and an empty sequence makes `createBuffer`
throw.) -/
theorem C1_pcm_roundtrip_amended (s : List ℚ) (hne : s ≠ [])
    (hrange : ∀ x ∈ s, -1 ≤ x ∧ x < 1) :
    ∃ out : List ℚ,
      decodeAudioData (decode (createBlob s).data) 16000 1 =
        .ok { numChannels := 1, frameCount := s.length, sampleRate := 16000,
              channelData := [out] } ∧
      out.length = s.length ∧
      List.Forall₂ (fun x y => |x - y| ≤ 1 / 32768) s out := by
  refine ⟨s.map fun x => ((PCM.toInt16 (x * 32768) : ℚ) / 32768),
    decode_createBlob s hne, by rw [List.length_map], ?_⟩
  rw [List.forall₂_map_right_iff, List.forall₂_same]
  intro x hx
  exact PCM.toInt16_sample_close x (hrange x hx).1 (hrange x hx).2

/-- Witness for C1 (amended) at the sample sequence `[1/2, -1/2]`. -/
theorem C1_pcm_roundtrip_amended_witness :
    ∃ out : List ℚ,
      decodeAudioData (decode (createBlob [1/2, -1/2]).data) 16000 1 =
        .ok { numChannels := 1, frameCount := ([1/2, -1/2] : List ℚ).length,
              sampleRate := 16000, channelData := [out] } ∧
      out.length = ([1/2, -1/2] : List ℚ).length ∧
      List.Forall₂ (fun x y => |x - y| ≤ 1 / 32768) ([1/2, -1/2] : List ℚ) out :=
  C1_pcm_roundtrip_amended [1/2, -1/2] (List.cons_ne_nil _ _) (by
    intro x hx
    simp only [List.mem_cons, List.not_mem_nil, or_false] at hx
    rcases hx with rfl | rfl <;> norm_num)

/-- C1 counterexample: at the one-sample sequence `[1]` — allowed by the
claim's range `[-1, 1]` — the stored 16-bit value is `ToInt16 32768 =
-32768`, the round trip returns `-1`, and the per-sample error is `2`,
far above `1/32768`.  So the claim as stated is false. -/
theorem C1_pcm_roundtrip_counterexample :
    decodeAudioData (decode (createBlob [1]).data) 16000 1 =
      .ok { numChannels := 1, frameCount := 1, sampleRate := 16000,
            channelData := [[-1]] } ∧
    ¬ (|(1 : ℚ) - (-1 : ℚ)| ≤ 1 / 32768) := by
  constructor
  · have h := decode_createBlob [1] (List.cons_ne_nil _ _)
    rw [h]
    have h1 : PCM.ratTrunc ((1 : ℚ) * 32768) = 32768 := by
      unfold PCM.ratTrunc
      rw [if_pos (by norm_num)]
      norm_num
    have ht : PCM.toInt16 ((1 : ℚ) * 32768) = -32768 := by
      unfold PCM.toInt16
      rw [h1]
      norm_num
    have hv : ((PCM.toInt16 ((1 : ℚ) * 32768) : ℚ) / 32768) = -1 := by
      rw [ht]; norm_num
    simp only [List.map_cons, List.map_nil, hv]
    rfl
  · rw [not_le, show |(1 : ℚ) - (-1 : ℚ)| = 2 from by rw [abs_of_nonneg] <;> norm_num]
    norm_num

/-- C2 (amended): `decodeAudioData` fails on an odd byte length (the
`Int16Array` constructor throws a `RangeError`), but for an even byte
length whose 16-bit count is not divisible by `channelCount` it does NOT
fail: it silently truncates, returning a buffer of
`⌊int16Count / channelCount⌋` frames per channel. -/
theorem C2_decodeAudioData_amended (data : List ℕ) (rate nc : ℕ) :
    (data.length % 2 ≠ 0 → decodeAudioData data rate nc =
      .error "RangeError: byte length of Int16Array should be a multiple of 2")
  ∧ (data.length % 2 = 0 → nc ≠ 0 → data.length / 2 / nc ≠ 0 →
      ∃ buf, decodeAudioData data rate nc = .ok buf ∧
        buf.frameCount = data.length / 2 / nc ∧
        buf.channelData.length = nc ∧
        ∀ ch ∈ buf.channelData, ch.length = data.length / 2 / nc) := by
  constructor
  · intro hodd
    unfold decodeAudioData
    rw [if_pos hodd]
  · intro heven hnc hfc
    unfold decodeAudioData
    rw [PCM.bytesToInt16LE_length, if_neg (by omega),
      if_neg (by push_neg; exact ⟨hnc, hfc⟩)]
    refine ⟨_, rfl, rfl, by rw [List.length_map, List.length_range], ?_⟩
    intro ch hch
    obtain ⟨c, _, rfl⟩ := List.mem_map.mp hch
    rw [List.length_map, List.length_range]

/-- Witness for C2 (amended): 3 bytes fail; 6 bytes with 2 channels
succeed with one frame per channel. -/
theorem C2_decodeAudioData_amended_witness :
    decodeAudioData [0, 0, 0] 24000 1 =
      .error "RangeError: byte length of Int16Array should be a multiple of 2"
  ∧ ∃ buf, decodeAudioData [0, 0, 0, 0, 0, 1] 24000 2 = .ok buf ∧
      buf.frameCount = ([0, 0, 0, 0, 0, 1] : List ℕ).length / 2 / 2 ∧
      buf.channelData.length = 2 ∧
      ∀ ch ∈ buf.channelData, ch.length = ([0, 0, 0, 0, 0, 1] : List ℕ).length / 2 / 2 :=
  ⟨(C2_decodeAudioData_amended [0, 0, 0] 24000 1).1 (by decide),
   (C2_decodeAudioData_amended [0, 0, 0, 0, 0, 1] 24000 2).2 (by decide) (by decide) (by decide)⟩

/-- C2 counterexample: a 6-byte buffer with `channelCount = 2` has byte
length not divisible by `2 * channelCount = 4`, yet `decodeAudioData`
succeeds (frame count truncated from 1.5 to 1, the trailing 16-bit
sample silently dropped) instead of failing.  So the claim as stated is
false. -/
theorem C2_decodeAudioData_counterexample :
    (∃ buf, decodeAudioData [0, 0, 0, 0, 0, 1] 24000 2 = .ok buf ∧
      buf.frameCount = 1) ∧ ([0, 0, 0, 0, 0, 1] : List ℕ).length % (2 * 2) ≠ 0 :=
  ⟨⟨_, rfl, rfl⟩, by decide⟩

/-- C7: for every captured frame of `N` float samples, the blob produced
by `createBlob` has MIME type exactly `audio/pcm;rate=16000` and its
base64 `data` decodes to exactly `2·N` bytes; the source's capture
configuration frames `N = 4096` samples, giving `8192` bytes. -/
theorem C7_createBlob_shape (data : List ℚ) :
    (createBlob data).mimeType = "audio/pcm;rate=16000" ∧
    (decode (createBlob data).data).length = 2 * data.length ∧
    captureFrameSize = 4096 ∧ 2 * captureFrameSize = 8192 := by
  refine ⟨rfl, ?_, rfl, rfl⟩
  show (decode (encode (PCM.int16sToBytesLE _))).length = _
  rw [show decode (encode (PCM.int16sToBytesLE (data.map fun x => PCM.toInt16 (x * 32768)))) =
        PCM.int16sToBytesLE (data.map fun x => PCM.toInt16 (x * 32768)) from
      atobChars_btoaBytes _ (PCM.int16sToBytesLE_lt_256 _),
    PCM.int16sToBytesLE_length, List.length_map]

/-! ### Playback helper lemmas -/

theorem AudioBuffer.duration_nonneg (b : AudioBuffer) : 0 ≤ b.duration := by
  unfold AudioBuffer.duration
  positivity

/-- A segment whose decode succeeds cannot have an empty `data` field. -/
theorem decodeOk_ne_empty {b : List ℕ} {buf : AudioBuffer}
    (h : decodeAudioData (decode b) 24000 1 = .ok buf) : b.isEmpty = false := by
  cases b with
  | nil => simp [decode, atobChars, decodeAudioData, PCM.bytesToInt16LE] at h
  | cons x xs => rfl

/-- One audio-only message whose decode succeeds: raise `nextStartTime`
to `now`, then schedule the buffer. -/
theorem handleLiveMessage_audio_ok (q : PlaybackState) (b : List ℕ) (t : ℚ)
    (buf : AudioBuffer) (hbuf : decodeAudioData (decode b) 24000 1 = .ok buf) :
    handleLiveMessage true q { audioData := some b, interrupted := false } t =
      (scheduleSegment { q with nextStartTime := max q.nextStartTime t } buf.duration,
       false) := by
  have hne := decodeOk_ne_empty hbuf
  cases b with
  | nil => simp at hne
  | cons x xs => simp [handleLiveMessage, hbuf]

theorem stopActiveFrom_get? (a : List ℕ) : ∀ (l : List SourceNode) (base j : ℕ),
    (stopActiveFrom a base l).get? j =
      (l.get? j).map fun s => if base + j ∈ a then { s with stopped := true } else s := by
  intro l
  induction l with
  | nil => intro base j; simp [stopActiveFrom]
  | cons s rest ih =>
    intro base j
    cases j with
    | zero => simp [stopActiveFrom]
    | succ k =>
      simp only [stopActiveFrom, List.get?_cons_succ, ih (base + 1) k]
      have : base + 1 + k = base + (k + 1) := by omega
      rw [this]

/-- After the interruption path, every source that was in the active set
is marked stopped. -/
theorem clearPlayback_stops (q : PlaybackState) (i : ℕ) (hi : i ∈ q.active)
    (s : SourceNode) (hs : (clearPlayback q).sources.get? i = some s) :
    s.stopped = true := by
  unfold clearPlayback at hs
  rw [stopActiveFrom_get?] at hs
  cases hq : q.sources.get? i with
  | none => rw [hq] at hs; simp at hs
  | some s0 =>
    rw [hq] at hs
    simp only [Option.map_some'] at hs
    rw [if_pos (by simpa using hi)] at hs
    cases hs
    rfl

theorem stopActiveFrom_nil_active : ∀ (l : List SourceNode) (i : ℕ),
    stopActiveFrom [] i l = l := by
  intro l
  induction l with
  | nil => intro i; rfl
  | cons s r ih => intro i; simp [stopActiveFrom, ih]

theorem clearPlayback_clearPlayback (p : PlaybackState) :
    clearPlayback (clearPlayback p) = clearPlayback p := by
  simp [clearPlayback, stopActiveFrom_nil_active]

/-- Trace invariant of a run of audio-only messages: the source log only
grows, one gaplessly-chained source per segment, the first new source
starts no earlier than the inherited `nextStartTime`, `nextStartTime`
never decreases, and it ends at the last new source's end. -/
theorem runSegments_spec : ∀ (segs : List (List ℕ × ℚ)) (p : PlaybackState),
    (∀ sg ∈ segs, (decodeAudioData (decode sg.1) 24000 1).isOk = true) →
    ∃ news : List SourceNode,
      (runSegments p segs).sources = p.sources ++ news ∧
      news.length = segs.length ∧
      List.Chain' (fun a b => a.startTime + a.duration ≤ b.startTime) news ∧
      (∀ first, news.head? = some first → p.nextStartTime ≤ first.startTime) ∧
      p.nextStartTime ≤ (runSegments p segs).nextStartTime ∧
      (∀ last, news.getLast? = some last →
        last.startTime + last.duration ≤ (runSegments p segs).nextStartTime) := by
  intro segs
  induction segs with
  | nil =>
    intro p _
    exact ⟨[], by simp [runSegments], rfl, List.chain'_nil, by simp, le_refl _, by simp⟩
  | cons sg rest ih =>
    intro p hok
    obtain ⟨b, t⟩ := sg
    have hhead := hok (b, t) (by simp)
    obtain ⟨buf, hbuf⟩ : ∃ buf, decodeAudioData (decode b) 24000 1 = .ok buf := by
      cases hd : decodeAudioData (decode b) 24000 1 with
      | error e => rw [hd] at hhead; simp [Except.isOk, Except.toBool] at hhead
      | ok buf => exact ⟨buf, rfl⟩
    have hstep : runSegments p ((b, t) :: rest) =
        runSegments (scheduleSegment { p with nextStartTime := max p.nextStartTime t }
          buf.duration) rest :=
      calc runSegments p ((b, t) :: rest)
          = runSegments
              (handleLiveMessage true p { audioData := some b, interrupted := false } t).1
              rest := rfl
        _ = runSegments (scheduleSegment { p with nextStartTime := max p.nextStartTime t }
              buf.duration) rest := by
            rw [handleLiveMessage_audio_ok p b t buf hbuf]
    set p1 := scheduleSegment { p with nextStartTime := max p.nextStartTime t }
      buf.duration with hp1
    obtain ⟨news', hsrc', hlen', hchain', hhead', hmono', hlast'⟩ :=
      ih p1 (fun sg hsg => hok sg (by simp [hsg]))
    set newSrc : SourceNode :=
      { startTime := max p.nextStartTime t, duration := buf.duration, stopped := false }
      with hnew
    have hp1src : p1.sources = p.sources ++ [newSrc] := rfl
    have hp1next : p1.nextStartTime = newSrc.startTime + newSrc.duration := rfl
    refine ⟨newSrc :: news', ?_, ?_, ?_, ?_, ?_, ?_⟩
    · rw [hstep, hsrc', hp1src, List.append_assoc]
      rfl
    · simp [hlen']
    · rw [List.chain'_cons']
      refine ⟨?_, hchain'⟩
      intro y hy
      have := hhead' y hy
      rw [hp1next] at this
      exact this
    · intro first hfirst
      simp only [List.head?_cons, Option.some.injEq] at hfirst
      subst hfirst
      exact le_max_left _ _
    · rw [hstep]
      calc p.nextStartTime ≤ max p.nextStartTime t := le_max_left _ _
        _ ≤ max p.nextStartTime t + buf.duration := by
            have := buf.duration_nonneg
            linarith
        _ = p1.nextStartTime := rfl
        _ ≤ (runSegments p1 rest).nextStartTime := hmono'
    · intro last hlast
      rw [hstep]
      cases news' with
      | nil =>
        simp only [List.getLast?_singleton, Option.some.injEq] at hlast
        subst hlast
        rw [← hp1next]
        exact hmono'
      | cons y ys =>
        rw [List.getLast?_cons_cons] at hlast
        exact hlast' last hlast

/-- C3: in a run of audio segments with no interruption signal, each
segment is scheduled at `max(nextStartTime, now)`, `nextStartTime`
advances by the segment's buffer duration, and consecutive scheduled
sources are monotone, gapless and order-preserving:
`start(i+1) ≥ start(i) + d(i)`. -/
theorem C3_playback_monotonic_gapless (p : PlaybackState) (segs : List (List ℕ × ℚ))
    (hok : ∀ sg ∈ segs, (decodeAudioData (decode sg.1) 24000 1).isOk = true) :
    (∃ news : List SourceNode,
      (runSegments p segs).sources = p.sources ++ news ∧
      news.length = segs.length ∧
      List.Chain' (fun a b => a.startTime + a.duration ≤ b.startTime) news ∧
      (∀ first, news.head? = some first → p.nextStartTime ≤ first.startTime)) ∧
    (∀ (q : PlaybackState) (b : List ℕ) (t : ℚ) (buf : AudioBuffer),
      decodeAudioData (decode b) 24000 1 = .ok buf →
      handleLiveMessage true q { audioData := some b, interrupted := false } t =
        ({ nextStartTime := max q.nextStartTime t + buf.duration
           active := q.active ++ [q.sources.length]
           sources := q.sources ++
             [{ startTime := max q.nextStartTime t, duration := buf.duration,
                stopped := false }] }, false)) := by
  constructor
  · obtain ⟨news, h1, h2, h3, h4, _, _⟩ := runSegments_spec segs p hok
    exact ⟨news, h1, h2, h3, h4⟩
  · intro q b t buf hbuf
    rw [handleLiveMessage_audio_ok q b t buf hbuf]
    rfl

/-- Witness for C3: two segments of two zero samples each
(base64 `AAA=`), handled at clock readings 0 and 1, starting from the
empty schedule. -/
theorem C3_playback_monotonic_gapless_witness :
    ∃ news : List SourceNode,
      (runSegments { nextStartTime := 0, active := [], sources := [] }
          [([65, 65, 65, 61], 0), ([65, 65, 65, 61], 1)]).sources =
        ({ nextStartTime := 0, active := [], sources := [] } : PlaybackState).sources
          ++ news ∧
      news.length = 2 ∧
      List.Chain' (fun a b => a.startTime + a.duration ≤ b.startTime) news ∧
      (∀ first, news.head? = some first →
        ({ nextStartTime := 0, active := [], sources := [] } :
          PlaybackState).nextStartTime ≤ first.startTime) :=
  (C3_playback_monotonic_gapless { nextStartTime := 0, active := [], sources := [] }
    [([65, 65, 65, 61], 0), ([65, 65, 65, 61], 1)] (by decide)).1

/-- C4 (amended): after a message carrying the interruption signal is
handled to completion — i.e. the handler does not reject, which it can
only do when the same message carries an audio payload whose decode
throws — the active set is empty, `nextStartTime` is 0, every
previously active source has been stopped, and a segment handled next at
clock `t ≥ 0` is scheduled to start exactly at `t` — the current time,
not a stale future time.  (The original claim, over every interruption
message, fails: a bundled malformed audio payload makes the handler
reject before the interruption branch; see the counterexample.) -/
theorem C4_interruption (p : PlaybackState) (m : LiveMessage) (now : ℚ)
    (hint : m.interrupted = true)
    (hdone : (handleLiveMessage true p m now).2 = false) :
    (handleLiveMessage true p m now).1.active = [] ∧
    (handleLiveMessage true p m now).1.nextStartTime = 0 ∧
    (∀ i ∈ p.active, ∀ s, (handleLiveMessage true p m now).1.sources.get? i = some s →
      s.stopped = true) ∧
    (∀ (b : List ℕ) (t : ℚ) (buf : AudioBuffer), 0 ≤ t →
      decodeAudioData (decode b) 24000 1 = .ok buf →
      ∃ s : SourceNode,
        (handleLiveMessage true ((handleLiveMessage true p m now).1)
            { audioData := some b, interrupted := false } t).1.sources =
          (handleLiveMessage true p m now).1.sources ++ [s] ∧
        s.startTime = t) := by
  obtain ⟨ad, intr⟩ := m
  have hintr : intr = true := hint
  subst hintr
  have hq : ∃ q : PlaybackState,
      handleLiveMessage true p { audioData := ad, interrupted := true } now =
        (clearPlayback q, false) ∧
      p.active ⊆ q.active := by
    cases ad with
    | none => exact ⟨p, rfl, fun i hi => hi⟩
    | some b64 =>
      cases b64 with
      | nil => exact ⟨p, rfl, fun i hi => hi⟩
      | cons x xs =>
        cases hd : decodeAudioData (decode (x :: xs)) 24000 1 with
        | error e =>
          exfalso
          have hcomp : (handleLiveMessage true p
              { audioData := some (x :: xs), interrupted := true } now).2 = true := by
            simp [handleLiveMessage, hd]
          rw [hcomp] at hdone
          exact Bool.noConfusion hdone
        | ok buf =>
          have hcomp : handleLiveMessage true p
              { audioData := some (x :: xs), interrupted := true } now =
              (clearPlayback (scheduleSegment
                { p with nextStartTime := max p.nextStartTime now } buf.duration),
               false) := by
            simp [handleLiveMessage, hd]
          exact ⟨scheduleSegment { p with nextStartTime := max p.nextStartTime now }
              buf.duration,
            hcomp, fun i hi => List.mem_append_left _ hi⟩
  obtain ⟨q, hq, hsub⟩ := hq
  rw [hq]
  refine ⟨rfl, rfl, ?_, ?_⟩
  · intro i hi s hs
    exact clearPlayback_stops q i (hsub hi) s hs
  · intro b t buf ht hbuf
    rw [handleLiveMessage_audio_ok _ b t buf hbuf]
    refine ⟨_, rfl, ?_⟩
    show max (clearPlayback q).nextStartTime t = t
    have : (clearPlayback q).nextStartTime = 0 := rfl
    rw [this]
    exact max_eq_right ht

/-- Witness for C4: a pure interruption message at clock 2, on a state
with one active scheduled source, followed by a segment at clock 3. -/
theorem C4_interruption_witness :
    (handleLiveMessage true
        { nextStartTime := 5, active := [0],
          sources := [{ startTime := 1, duration := 4, stopped := false }] }
        { audioData := none, interrupted := true } 2).1.active = [] ∧
    (handleLiveMessage true
        { nextStartTime := 5, active := [0],
          sources := [{ startTime := 1, duration := 4, stopped := false }] }
        { audioData := none, interrupted := true } 2).1.nextStartTime = 0 ∧
    (∀ i ∈ ([0] : List ℕ),
      ∀ s, (handleLiveMessage true
        { nextStartTime := 5, active := [0],
          sources := [{ startTime := 1, duration := 4, stopped := false }] }
        { audioData := none, interrupted := true } 2).1.sources.get? i = some s →
      s.stopped = true) ∧
    (∀ (b : List ℕ) (t : ℚ) (buf : AudioBuffer), 0 ≤ t →
      decodeAudioData (decode b) 24000 1 = .ok buf →
      ∃ s : SourceNode,
        (handleLiveMessage true ((handleLiveMessage true
            { nextStartTime := 5, active := [0],
              sources := [{ startTime := 1, duration := 4, stopped := false }] }
            { audioData := none, interrupted := true } 2).1)
            { audioData := some b, interrupted := false } t).1.sources =
          (handleLiveMessage true
            { nextStartTime := 5, active := [0],
              sources := [{ startTime := 1, duration := 4, stopped := false }] }
            { audioData := none, interrupted := true } 2).1.sources ++ [s] ∧
        s.startTime = t) :=
  C4_interruption
    { nextStartTime := 5, active := [0],
      sources := [{ startTime := 1, duration := 4, stopped := false }] }
    { audioData := none, interrupted := true } 2 rfl rfl

/-- C4 counterexample: a message that carries the interruption signal
together with the audio payload `AA==` (decoding to a single byte, an
odd length) makes `decodeAudioData` throw before the interruption
branch runs: the handler rejects, the active source stays unstopped,
`nextStartTime` keeps its stale value 5 (only raised to
`max(5, now) = 5`), and a segment handled right afterwards at clock 2
is scheduled at the stale future time 5, not at the current time.  So
the claim as stated — quantifying over every message carrying an
interruption signal — is false. -/
theorem C4_interruption_counterexample :
    (handleLiveMessage true
        { nextStartTime := 5, active := [0],
          sources := [{ startTime := 1, duration := 4, stopped := false }] }
        { audioData := some [65, 65, 61, 61], interrupted := true } 2).2 = true ∧
    (handleLiveMessage true
        { nextStartTime := 5, active := [0],
          sources := [{ startTime := 1, duration := 4, stopped := false }] }
        { audioData := some [65, 65, 61, 61], interrupted := true } 2).1.active = [0] ∧
    (handleLiveMessage true
        { nextStartTime := 5, active := [0],
          sources := [{ startTime := 1, duration := 4, stopped := false }] }
        { audioData := some [65, 65, 61, 61], interrupted := true } 2).1.nextStartTime = 5 ∧
    (handleLiveMessage true
        { nextStartTime := 5, active := [0],
          sources := [{ startTime := 1, duration := 4, stopped := false }] }
        { audioData := some [65, 65, 61, 61], interrupted := true } 2).1.sources =
      [{ startTime := 1, duration := 4, stopped := false }] ∧
    ¬ ((handleLiveMessage true
        { nextStartTime := 5, active := [0],
          sources := [{ startTime := 1, duration := 4, stopped := false }] }
        { audioData := some [65, 65, 61, 61], interrupted := true } 2).1.active = [] ∧
       (handleLiveMessage true
        { nextStartTime := 5, active := [0],
          sources := [{ startTime := 1, duration := 4, stopped := false }] }
        { audioData := some [65, 65, 61, 61], interrupted := true } 2).1.nextStartTime = 0) ∧
    (∃ s : SourceNode,
      (handleLiveMessage true
          ((handleLiveMessage true
            { nextStartTime := 5, active := [0],
              sources := [{ startTime := 1, duration := 4, stopped := false }] }
            { audioData := some [65, 65, 61, 61], interrupted := true } 2).1)
          { audioData := some [65, 65, 65, 61], interrupted := false } 2).1.sources =
        (handleLiveMessage true
            { nextStartTime := 5, active := [0],
              sources := [{ startTime := 1, duration := 4, stopped := false }] }
            { audioData := some [65, 65, 61, 61], interrupted := true } 2).1.sources ++ [s] ∧
      s.startTime = 5 ∧ (2 : ℚ) < s.startTime) := by
  have hd : decodeAudioData (decode [65, 65, 61, 61]) 24000 1 =
      .error "RangeError: byte length of Int16Array should be a multiple of 2" := rfl
  have hcomp : handleLiveMessage true
      { nextStartTime := 5, active := [0],
        sources := [{ startTime := 1, duration := 4, stopped := false }] }
      { audioData := some [65, 65, 61, 61], interrupted := true } 2 =
      ({ nextStartTime := max 5 2, active := [0],
         sources := [{ startTime := 1, duration := 4, stopped := false }] }, true) := by
    simp [handleLiveMessage, hd]
  have hmax : (max (5 : ℚ) 2) = 5 := max_eq_left (by norm_num)
  have hok2 : (decodeAudioData (decode [65, 65, 65, 61]) 24000 1).isOk = true := by decide
  obtain ⟨buf, hbuf⟩ : ∃ buf, decodeAudioData (decode [65, 65, 65, 61]) 24000 1 =
      .ok buf := by
    cases hb : decodeAudioData (decode [65, 65, 65, 61]) 24000 1 with
    | error e => rw [hb] at hok2; simp [Except.isOk, Except.toBool] at hok2
    | ok b => exact ⟨b, rfl⟩
  rw [hcomp]
  refine ⟨rfl, rfl, hmax, rfl, ?_, ?_⟩
  · rintro ⟨h1, -⟩
    exact absurd h1 (by simp)
  · rw [handleLiveMessage_audio_ok _ [65, 65, 65, 61] 2 buf hbuf]
    refine ⟨{ startTime := max (max 5 2) 2, duration := buf.duration, stopped := false },
      rfl, ?_, ?_⟩
    · show max (max (5 : ℚ) 2) 2 = 5
      rw [hmax, hmax]
    · show (2 : ℚ) < max (max 5 2) 2
      rw [hmax, hmax]
      norm_num

/-- C6: `stopRecording` is idempotent — a second call in succession
leaves the state of the first call unchanged and raises no error (every
release step of the model is total, matching the platform operations,
none of which throws synchronously) — and after each call the session
and device-context refs are cleared, every media track is stopped, the
active source set is empty, every previously active source has been
stopped, and `nextStartTime` is 0.  The release steps are written as
independent record fields, so no release can suppress another. -/
theorem C6_stopRecording_idempotent (st : AppAudioState) :
    stopRecording (stopRecording st) = stopRecording st ∧
    (stopRecording st).isRecording = false ∧
    (stopRecording st).session = none ∧
    (stopRecording st).contexts = none ∧
    (stopRecording st).playback.active = [] ∧
    (stopRecording st).playback.nextStartTime = 0 ∧
    (∀ l, (stopRecording st).mediaTracks = some l → ∀ tr ∈ l, tr.stopped = true) ∧
    (∀ i ∈ st.playback.active, ∀ s,
      (stopRecording st).playback.sources.get? i = some s → s.stopped = true) := by
  refine ⟨?_, rfl, rfl, rfl, rfl, rfl, ?_, ?_⟩
  · unfold stopRecording
    refine (AppAudioState.mk.injEq _ _ _ _ _ _ _ _ _ _).mpr
      ⟨rfl, ?_, rfl, rfl, clearPlayback_clearPlayback _⟩
    cases st.mediaTracks with
    | none => rfl
    | some l =>
      simp only [Option.map_some', Option.some.injEq, List.map_map]
      rfl
  · intro l hl tr htr
    unfold stopRecording at hl
    cases hm : st.mediaTracks with
    | none => rw [hm] at hl; exact Option.noConfusion hl
    | some l0 =>
      rw [hm] at hl
      simp only [Option.map_some', Option.some.injEq] at hl
      subst hl
      obtain ⟨x, _, rfl⟩ := List.mem_map.mp htr
      rfl
  · intro i hi s hs
    exact clearPlayback_stops st.playback i hi s hs

/-- Witness for C6: a live state with one unstopped track, an open
session, wired contexts, and one active scheduled source. -/
theorem C6_stopRecording_idempotent_witness :
    stopRecording (stopRecording
      { isRecording := true, mediaTracks := some [{ stopped := false }],
        session := some { closed := false },
        contexts := some { scriptProcessorWired := true, sourceWired := true,
                           inputClosed := false, outputClosed := false },
        playback := { nextStartTime := 3, active := [0],
                      sources := [{ startTime := 0, duration := 2, stopped := false }] } }) =
      stopRecording
      { isRecording := true, mediaTracks := some [{ stopped := false }],
        session := some { closed := false },
        contexts := some { scriptProcessorWired := true, sourceWired := true,
                           inputClosed := false, outputClosed := false },
        playback := { nextStartTime := 3, active := [0],
                      sources := [{ startTime := 0, duration := 2, stopped := false }] } } ∧
    (stopRecording
      { isRecording := true, mediaTracks := some [{ stopped := false }],
        session := some { closed := false },
        contexts := some { scriptProcessorWired := true, sourceWired := true,
                           inputClosed := false, outputClosed := false },
        playback := { nextStartTime := 3, active := [0],
                      sources := [{ startTime := 0, duration := 2, stopped := false }] } }
      ).isRecording = false ∧
    (stopRecording
      { isRecording := true, mediaTracks := some [{ stopped := false }],
        session := some { closed := false },
        contexts := some { scriptProcessorWired := true, sourceWired := true,
                           inputClosed := false, outputClosed := false },
        playback := { nextStartTime := 3, active := [0],
                      sources := [{ startTime := 0, duration := 2, stopped := false }] } }
      ).session = none ∧
    (stopRecording
      { isRecording := true, mediaTracks := some [{ stopped := false }],
        session := some { closed := false },
        contexts := some { scriptProcessorWired := true, sourceWired := true,
                           inputClosed := false, outputClosed := false },
        playback := { nextStartTime := 3, active := [0],
                      sources := [{ startTime := 0, duration := 2, stopped := false }] } }
      ).contexts = none ∧
    (stopRecording
      { isRecording := true, mediaTracks := some [{ stopped := false }],
        session := some { closed := false },
        contexts := some { scriptProcessorWired := true, sourceWired := true,
                           inputClosed := false, outputClosed := false },
        playback := { nextStartTime := 3, active := [0],
                      sources := [{ startTime := 0, duration := 2, stopped := false }] } }
      ).playback.active = [] ∧
    (stopRecording
      { isRecording := true, mediaTracks := some [{ stopped := false }],
        session := some { closed := false },
        contexts := some { scriptProcessorWired := true, sourceWired := true,
                           inputClosed := false, outputClosed := false },
        playback := { nextStartTime := 3, active := [0],
                      sources := [{ startTime := 0, duration := 2, stopped := false }] } }
      ).playback.nextStartTime = 0 ∧
    (∀ l, (stopRecording
      { isRecording := true, mediaTracks := some [{ stopped := false }],
        session := some { closed := false },
        contexts := some { scriptProcessorWired := true, sourceWired := true,
                           inputClosed := false, outputClosed := false },
        playback := { nextStartTime := 3, active := [0],
                      sources := [{ startTime := 0, duration := 2, stopped := false }] } }
      ).mediaTracks = some l → ∀ tr ∈ l, tr.stopped = true) ∧
    (∀ i ∈ ([0] : List ℕ), ∀ s,
      (stopRecording
      { isRecording := true, mediaTracks := some [{ stopped := false }],
        session := some { closed := false },
        contexts := some { scriptProcessorWired := true, sourceWired := true,
                           inputClosed := false, outputClosed := false },
        playback := { nextStartTime := 3, active := [0],
                      sources := [{ startTime := 0, duration := 2, stopped := false }] } }
      ).playback.sources.get? i = some s → s.stopped = true) :=
  C6_stopRecording_idempotent
    { isRecording := true, mediaTracks := some [{ stopped := false }],
      session := some { closed := false },
      contexts := some { scriptProcessorWired := true, sourceWired := true,
                         inputClosed := false, outputClosed := false },
      playback := { nextStartTime := 3, active := [0],
                    sources := [{ startTime := 0, duration := 2, stopped := false }] } }

/-! ### Video generation polling -/

theorem pollUntilDone_done : ∀ (rest : List VideoOp) (op0 op : VideoOp),
    pollUntilDone op0 rest = some op → op.done = true := by
  intro rest
  induction rest with
  | nil =>
    intro op0 op h
    unfold pollUntilDone at h
    by_cases hd : op0.done = true
    · rw [if_pos hd] at h; cases h; exact hd
    · rw [if_neg hd] at h; exact Option.noConfusion h
  | cons o os ih =>
    intro op0 op h
    unfold pollUntilDone at h
    by_cases hd : op0.done = true
    · rw [if_pos hd] at h; cases h; exact hd
    · rw [if_neg hd] at h; exact ih o op h

/-- C8: `generateVideo` polls the job until a terminal (`done`)
operation and then returns a playable object URL exactly when the
finished operation carries a download URI and the download fetch is
`ok`; it fails with the "no link" error when the URI is absent, and
with the HTTP error when the fetch is not `ok`.  The poll interval is
10 seconds. -/
theorem C8_generateVideo_poll (op0 : VideoOp) (rest : List VideoOp) (key : String)
    (fetchFn : String → FetchResponse) (op : VideoOp)
    (hpoll : pollUntilDone op0 rest = some op) :
    op.done = true ∧
    (op.uri = none → generateVideo op0 rest key fetchFn =
      some (.error "Video generation failed or returned no link.")) ∧
    (∀ uri, op.uri = some uri → (fetchFn (uri ++ "&key=" ++ key)).ok = true →
      generateVideo op0 rest key fetchFn =
        some (.ok (fetchFn (uri ++ "&key=" ++ key)).blobUrl)) ∧
    (∀ uri, op.uri = some uri → (fetchFn (uri ++ "&key=" ++ key)).ok = false →
      generateVideo op0 rest key fetchFn =
        some (.error ("Failed to download video: " ++
          (fetchFn (uri ++ "&key=" ++ key)).statusText))) ∧
    (∀ u, generateVideo op0 rest key fetchFn = some (.ok u) ↔
      ∃ uri, op.uri = some uri ∧ (fetchFn (uri ++ "&key=" ++ key)).ok = true ∧
        u = (fetchFn (uri ++ "&key=" ++ key)).blobUrl) ∧
    pollIntervalMs = 10000 := by
  have hgen : generateVideo op0 rest key fetchFn = some (match op.uri with
      | none => .error "Video generation failed or returned no link."
      | some uri =>
          if (fetchFn (uri ++ "&key=" ++ key)).ok then
            .ok (fetchFn (uri ++ "&key=" ++ key)).blobUrl
          else .error ("Failed to download video: " ++
            (fetchFn (uri ++ "&key=" ++ key)).statusText)) := by
    unfold generateVideo
    rw [hpoll]
    rfl
  refine ⟨pollUntilDone_done rest op0 op hpoll, ?_, ?_, ?_, ?_, rfl⟩
  · intro hnone; rw [hgen, hnone]
  · intro uri huri hok; rw [hgen, huri]; simp [hok]
  · intro uri huri hok; rw [hgen, huri]; simp [hok]
  · intro u
    constructor
    · intro hu
      rw [hgen] at hu
      cases huri : op.uri with
      | none => rw [huri] at hu; simp at hu
      | some uri =>
        rw [huri] at hu
        by_cases hok : (fetchFn (uri ++ "&key=" ++ key)).ok = true
        · simp only [hok, if_true] at hu
          simp only [Option.some.injEq, Except.ok.injEq] at hu
          exact ⟨uri, rfl, hok, hu.symm⟩
        · simp only [hok, if_false] at hu
          simp at hu
    · rintro ⟨uri, huri, hok, rfl⟩
      rw [hgen, huri]
      simp [hok]

/-- Witness for C8: one not-yet-done operation followed by one done
operation with a URI, and a fetch that succeeds. -/
theorem C8_generateVideo_poll_witness :
    ({ done := true, uri := some "u" } : VideoOp).done = true ∧
    (({ done := true, uri := some "u" } : VideoOp).uri = none →
      generateVideo { done := false, uri := none } [{ done := true, uri := some "u" }]
        "K" (fun _ => { ok := true, statusText := "OK", blobUrl := "blob:v" }) =
      some (.error "Video generation failed or returned no link.")) ∧
    (∀ uri, ({ done := true, uri := some "u" } : VideoOp).uri = some uri →
      ((fun _ => ({ ok := true, statusText := "OK", blobUrl := "blob:v" } : FetchResponse))
        (uri ++ "&key=" ++ "K")).ok = true →
      generateVideo { done := false, uri := none } [{ done := true, uri := some "u" }]
        "K" (fun _ => { ok := true, statusText := "OK", blobUrl := "blob:v" }) =
        some (.ok ((fun _ => ({ ok := true, statusText := "OK", blobUrl := "blob:v" } :
          FetchResponse)) (uri ++ "&key=" ++ "K")).blobUrl)) ∧
    (∀ uri, ({ done := true, uri := some "u" } : VideoOp).uri = some uri →
      ((fun _ => ({ ok := true, statusText := "OK", blobUrl := "blob:v" } : FetchResponse))
        (uri ++ "&key=" ++ "K")).ok = false →
      generateVideo { done := false, uri := none } [{ done := true, uri := some "u" }]
        "K" (fun _ => { ok := true, statusText := "OK", blobUrl := "blob:v" }) =
        some (.error ("Failed to download video: " ++
          ((fun _ => ({ ok := true, statusText := "OK", blobUrl := "blob:v" } :
            FetchResponse)) (uri ++ "&key=" ++ "K")).statusText))) ∧
    (∀ u, generateVideo { done := false, uri := none } [{ done := true, uri := some "u" }]
        "K" (fun _ => { ok := true, statusText := "OK", blobUrl := "blob:v" }) =
          some (.ok u) ↔
      ∃ uri, ({ done := true, uri := some "u" } : VideoOp).uri = some uri ∧
        ((fun _ => ({ ok := true, statusText := "OK", blobUrl := "blob:v" } : FetchResponse))
          (uri ++ "&key=" ++ "K")).ok = true ∧
        u = ((fun _ => ({ ok := true, statusText := "OK", blobUrl := "blob:v" } :
          FetchResponse)) (uri ++ "&key=" ++ "K")).blobUrl) ∧
    pollIntervalMs = 10000 :=
  C8_generateVideo_poll { done := false, uri := none } [{ done := true, uri := some "u" }]
    "K" (fun _ => { ok := true, statusText := "OK", blobUrl := "blob:v" })
    { done := true, uri := some "u" } rfl

/-! ### API-key selector -/

/-- C9: after `openSelectKey` resolves, the component reports the key as
selected (`true`) unconditionally — the result is the same for every
value the capability's `hasSelectedApiKey` would report, which is never
consulted — and when the capability or its `openSelectKey` member is
absent the handler does nothing and the selection state is unchanged. -/
theorem C9_handleSelectKey_unconditional (st : SelectorState) :
    (∀ a : AiStudio, a.openSelectKeyIsFun = true → a.openSelectKeyRejects = false →
      handleSelectKey (some a) st = ({ st with isKeySelected := true }, [true])) ∧
    handleSelectKey none st = (st, []) ∧
    (∀ a : AiStudio, a.openSelectKeyIsFun = false →
      handleSelectKey (some a) st = (st, [])) := by
  refine ⟨?_, rfl, ?_⟩
  · intro a h1 h2
    simp [handleSelectKey, h1, h2]
  · intro a h1
    simp [handleSelectKey, h1]

/-- Witness for C9: a capability whose `hasSelectedApiKey` would report
`false` still yields a `true` report after the dialog resolves; an
absent capability changes nothing. -/
theorem C9_handleSelectKey_unconditional_witness :
    handleSelectKey
      (some { hasSelectedApiKeyIsFun := true, hasSelectedApiKeyRejects := false,
              hasSelectedApiKeyValue := false, openSelectKeyIsFun := true,
              openSelectKeyRejects := false })
      { isKeySelected := false, isChecking := false } =
      ({ isKeySelected := true, isChecking := false }, [true]) ∧
    handleSelectKey none { isKeySelected := false, isChecking := false } =
      ({ isKeySelected := false, isChecking := false }, []) := by
  have h := C9_handleSelectKey_unconditional { isKeySelected := false, isChecking := false }
  exact ⟨h.1 _ rfl rfl, h.2.1⟩

/-- C10: the key status check fails closed — an absent capability, a
non-function `hasSelectedApiKey`, or a rejecting call all make the gate
report `false` — and on every path (success, absence, error) the
checking state terminates. -/
theorem C10_checkApiKey_fail_closed (w : Option AiStudio) (st : SelectorState) :
    (checkApiKey w st).1.isChecking = false ∧
    ((w = none ∨ ∃ a, w = some a ∧ (a.hasSelectedApiKeyIsFun = false ∨
        a.hasSelectedApiKeyRejects = true)) →
      (checkApiKey w st).2 = [false] ∧ (checkApiKey w st).1.isKeySelected = false) ∧
    (∀ a, w = some a → a.hasSelectedApiKeyIsFun = true →
      a.hasSelectedApiKeyRejects = false →
      (checkApiKey w st).2 = [a.hasSelectedApiKeyValue] ∧
      (checkApiKey w st).1.isKeySelected = a.hasSelectedApiKeyValue) := by
  refine ⟨?_, ?_, ?_⟩
  · cases w with
    | none => rfl
    | some a =>
      by_cases h1 : a.hasSelectedApiKeyIsFun = true
      · by_cases h2 : a.hasSelectedApiKeyRejects = true
        · simp [checkApiKey, h1, h2]
        · simp [checkApiKey, h1, h2]
      · simp [checkApiKey, h1]
  · rintro (rfl | ⟨a, rfl, hbad⟩)
    · exact ⟨rfl, rfl⟩
    · rcases hbad with h1 | h2
      · constructor <;> simp [checkApiKey, h1]
      · by_cases h1 : a.hasSelectedApiKeyIsFun = true
        · constructor <;> simp [checkApiKey, h1, h2]
        · constructor <;> simp [checkApiKey, h1]
  · rintro a rfl h1 h2
    constructor <;> simp [checkApiKey, h1, h2]

/-- Witness for C10: a present capability whose `hasSelectedApiKey` is
not a function (even though it would report `true`): the gate reports
`false` and checking ends. -/
theorem C10_checkApiKey_fail_closed_witness :
    (checkApiKey
      (some { hasSelectedApiKeyIsFun := false, hasSelectedApiKeyRejects := false,
              hasSelectedApiKeyValue := true, openSelectKeyIsFun := true,
              openSelectKeyRejects := false })
      { isKeySelected := true, isChecking := true }).1.isChecking = false ∧
    (checkApiKey
      (some { hasSelectedApiKeyIsFun := false, hasSelectedApiKeyRejects := false,
              hasSelectedApiKeyValue := true, openSelectKeyIsFun := true,
              openSelectKeyRejects := false })
      { isKeySelected := true, isChecking := true }).2 = [false] ∧
    (checkApiKey
      (some { hasSelectedApiKeyIsFun := false, hasSelectedApiKeyRejects := false,
              hasSelectedApiKeyValue := true, openSelectKeyIsFun := true,
              openSelectKeyRejects := false })
      { isKeySelected := true, isChecking := true }).1.isKeySelected = false := by
  have h := C10_checkApiKey_fail_closed
    (some { hasSelectedApiKeyIsFun := false, hasSelectedApiKeyRejects := false,
            hasSelectedApiKeyValue := true, openSelectKeyIsFun := true,
            openSelectKeyRejects := false })
    { isKeySelected := true, isChecking := true }
  exact ⟨h.1, (h.2.1 (Or.inr ⟨_, rfl, Or.inl rfl⟩)).1, (h.2.1 (Or.inr ⟨_, rfl, Or.inl rfl⟩)).2⟩

end Naya
